import Mathlib

/-!
Shallow embedding of the `ArbitrationAdapter` Solidity contract
(src/unnamed/part_002): EIP-712 ruling authentication with nonce replay
protection and arbitrator rotation.

Modelling conventions:
* `address`, `bytes32`, `uint256`, `uint8` values are `Nat`; the only place
  machine width matters for the verified claims is the checked addition
  `timestamp + 3600` (Solidity 0.8 reverts on overflow past 2^256 - 1),
  which is modelled explicitly by the `arithOverflow` branch.
* The cryptographic primitives (`keccak256` over the ABI encoding of the
  ruling struct, `_hashTypedDataV4` domain separation, `ECDSA.recover`) are
  uninterpreted functions collected in an `Env`.  `ECDSA.recover` from
  OpenZeppelin reverts on malformed / unrecoverable input instead of
  returning an address, which is modelled by `Option`: `none` is the
  ECDSA revert.  OpenZeppelin additionally guarantees that `recover`
  never returns the zero address (it reverts instead); claims needing that
  fact take it as an explicit hypothesis on the `Env`.
* Storage (`arbitrator`, `usedNonces`) is a `State`.  The mapping
  `usedNonces : mapping(bytes32 => bool)` is represented by the list of
  keys that have been set to `true`; the contract only ever sets entries
  to `true`, never back to `false`.
* Each `require` failure (an EVM revert, which rolls back all writes of
  the call) is a defined error value of an `Except`; a reverted call
  leaves the pre-call state in force, which `stepState` makes explicit.
-/

namespace ArbitrationAdapter

/-- Largest representable `uint256` value; `a + b` reverts in Solidity 0.8
when the mathematical sum exceeds this bound. -/
def UINT256_MAX : Nat := 2 ^ 256 - 1

/-- `FRESHNESS_WINDOW`: the literal `3600` from
`require(block.timestamp <= timestamp + 3600, "signature expired")`. -/
def FRESHNESS_WINDOW : Nat := 3600

/-- Uninterpreted cryptographic environment of the contract. -/
structure Env where
  /-- `keccak256(abi.encode(RULING_TYPEHASH, orderId, ruling, timestamp, nonce))`. -/
  keccakRuling : Nat → Nat → Nat → Nat → Nat
  /-- `_hashTypedDataV4`: combines a struct hash with the EIP-712 domain
  separator (name "EscrowArbitration", version "1", chain, contract). -/
  hashTypedDataV4 : Nat → Nat
  /-- `ECDSA.recover(digest, signature)`; `none` models the OpenZeppelin
  revert on a malformed / unrecoverable signature. -/
  ecrecover : Nat → List Nat → Option Nat
  /-- `keccak256(abi.encodePacked(orderId, nonce))`, the replay-record key. -/
  replayKey : Nat → Nat → Nat

/-- Contract storage: `address public arbitrator` and
`mapping(bytes32 => bool) public usedNonces` (as the list of keys set to
`true`). -/
structure State where
  arbitrator : Nat
  usedNonces : List Nat
deriving DecidableEq

/-- Revert reasons reachable from `verifyRulingSignature`. -/
inductive VerifyError where
  /-- `require(block.timestamp <= timestamp + 3600, "signature expired")`. -/
  | signatureExpired
  /-- Solidity 0.8 checked-arithmetic panic on `timestamp + 3600`. -/
  | arithOverflow
  /-- OpenZeppelin `ECDSA.recover` revert on malformed input. -/
  | invalidSignature
deriving DecidableEq

/-- Revert reasons reachable from `submitRuling`. -/
inductive SubmitError where
  | signatureExpired
  | arithOverflow
  | invalidSignature
  /-- `require(verifyRulingSignature(...), "bad signature")`. -/
  | badSignature
  /-- `require(!usedNonces[...], "nonce used")`. -/
  | nonceUsed
deriving DecidableEq

/-- Revert reason of the `onlyArbitrator` modifier:
`require(msg.sender == arbitrator, "only arbitrator")`. -/
inductive RotateError where
  | unauthorized
deriving DecidableEq

/-- The `RulingSubmitted(orderId, ruling, timestamp, nonce, submitter)`
event exactly as emitted by `submitRuling`. -/
structure RulingSubmittedEvent where
  orderId : Nat
  ruling : Nat
  timestamp : Nat
  nonce : Nat
  submitter : Nat
deriving DecidableEq

/-- The `ArbitratorChanged(newArbitrator)` event emitted by `setArbitrator`. -/
structure ArbitratorChangedEvent where
  newArbitrator : Nat
deriving DecidableEq

/-- The EIP-712 digest of a ruling payload:
`_hashTypedDataV4(keccak256(abi.encode(RULING_TYPEHASH, orderId, ruling, timestamp, nonce)))`. -/
def rulingDigest (env : Env) (orderId ruling timestamp nonce : Nat) : Nat :=
  env.hashTypedDataV4 (env.keccakRuling orderId ruling timestamp nonce)

/-- `verifyRulingSignature(orderId, ruling, timestamp, nonce, signature)`:
a `view` function (it writes no storage).  `now` is `block.timestamp`. -/
def verifyRulingSignature (env : Env) (s : State) (now : Nat)
    (orderId ruling timestamp nonce : Nat) (signature : List Nat) :
    Except VerifyError Bool :=
  if UINT256_MAX < timestamp + FRESHNESS_WINDOW then
    .error .arithOverflow
  else if now ≤ timestamp + FRESHNESS_WINDOW then
    match env.ecrecover (rulingDigest env orderId ruling timestamp nonce) signature with
    | some signer => .ok (decide (signer = s.arbitrator))
    | none => .error .invalidSignature
  else
    .error .signatureExpired

/-- Verification reverts propagate unchanged out of `submitRuling`. -/
def VerifyError.toSubmitError : VerifyError → SubmitError
  | .signatureExpired => .signatureExpired
  | .arithOverflow => .arithOverflow
  | .invalidSignature => .invalidSignature

/-- `submitRuling(orderId, ruling, timestamp, nonce, signature)`:
verifies the signature, rejects a used `(orderId, nonce)` replay key,
records the key and emits `RulingSubmitted`.  `sender` is `msg.sender`. -/
def submitRuling (env : Env) (s : State) (now sender : Nat)
    (orderId ruling timestamp nonce : Nat) (signature : List Nat) :
    Except SubmitError (State × RulingSubmittedEvent) :=
  match verifyRulingSignature env s now orderId ruling timestamp nonce signature with
  | .error e => .error e.toSubmitError
  | .ok false => .error .badSignature
  | .ok true =>
    if env.replayKey orderId nonce ∈ s.usedNonces then
      .error .nonceUsed
    else
      .ok ({ s with usedNonces := env.replayKey orderId nonce :: s.usedNonces },
           ⟨orderId, ruling, timestamp, nonce, sender⟩)

/-- `setArbitrator(a)` guarded by `onlyArbitrator`. -/
def setArbitrator (s : State) (sender a : Nat) :
    Except RotateError (State × ArbitratorChangedEvent) :=
  if sender = s.arbitrator then
    .ok ({ s with arbitrator := a }, ⟨a⟩)
  else
    .error .unauthorized

/-- `true` exactly when a `submitRuling` call succeeded (did not revert). -/
def isAccepted (x : Except SubmitError (State × RulingSubmittedEvent)) : Bool :=
  match x with
  | .ok _ => true
  | .error _ => false

/-- An external transaction against the contract. -/
inductive Op where
  | submit (now sender orderId ruling timestamp nonce : Nat) (signature : List Nat)
  | rotate (sender a : Nat)

/-- The storage after one transaction: a revert (error) rolls every write
back, so the state is unchanged; a success installs the new state. -/
def stepState (env : Env) (s : State) : Op → State
  | .submit now sender orderId ruling timestamp nonce signature =>
    match submitRuling env s now sender orderId ruling timestamp nonce signature with
    | .ok (s', _) => s'
    | .error _ => s
  | .rotate sender a =>
    match setArbitrator s sender a with
    | .ok (s', _) => s'
    | .error _ => s

/-- The storage after a sequence of transactions. -/
def execState (env : Env) (s : State) : List Op → State
  | [] => s
  | op :: ops => execState env (stepState env s op) ops

/-- Whether a single transaction is a `submitRuling` for the pair
`(orderId, nonce)` that succeeds from state `s`. -/
def acceptedHere (env : Env) (s : State) (orderId nonce : Nat) : Op → Bool
  | .submit now sender orderId' ruling timestamp nonce' signature =>
    orderId' == orderId && nonce' == nonce &&
      isAccepted (submitRuling env s now sender orderId' ruling timestamp nonce' signature)
  | .rotate _ _ => false

/-- How many transactions of the sequence are accepted `submitRuling`
calls for the pair `(orderId, nonce)`. -/
def acceptedCount (env : Env) (s : State) (orderId nonce : Nat) : List Op → Nat
  | [] => 0
  | op :: ops =>
    (if acceptedHere env s orderId nonce op then 1 else 0) +
      acceptedCount env (stepState env s op) orderId nonce ops

/-! ### Helper lemmas -/

/-- Anatomy of a successful `submitRuling`: the signature verified, the
replay key was fresh, exactly that key was inserted, and the emitted event
carries the payload fields and `msg.sender`. -/
theorem submit_ok_elim {env : Env} {s : State} {now sender oid r ts n : Nat}
    {sig : List Nat} {s' : State} {ev : RulingSubmittedEvent}
    (h : submitRuling env s now sender oid r ts n sig = .ok (s', ev)) :
    verifyRulingSignature env s now oid r ts n sig = .ok true ∧
    env.replayKey oid n ∉ s.usedNonces ∧
    s' = { s with usedNonces := env.replayKey oid n :: s.usedNonces } ∧
    ev = ⟨oid, r, ts, n, sender⟩ := by
  unfold submitRuling at h
  cases hv : verifyRulingSignature env s now oid r ts n sig with
  | error e => rw [hv] at h; cases h
  | ok b =>
    rw [hv] at h
    cases b with
    | false => cases h
    | true =>
      by_cases hk : env.replayKey oid n ∈ s.usedNonces
      · simp only [if_pos hk] at h; cases h
      · simp only [if_neg hk, Except.ok.injEq, Prod.mk.injEq] at h
        exact ⟨rfl, hk, h.1.symm, h.2.symm⟩

/-- A burned replay key makes `submitRuling` revert (with some reason). -/
theorem submit_used_not_accepted {env : Env} {s : State}
    {now sender oid r ts n : Nat} {sig : List Nat}
    (hk : env.replayKey oid n ∈ s.usedNonces) :
    isAccepted (submitRuling env s now sender oid r ts n sig) = false := by
  unfold submitRuling
  cases hv : verifyRulingSignature env s now oid r ts n sig with
  | error e => rfl
  | ok b =>
    cases b with
    | false => rfl
    | true => simp only [if_pos hk]; rfl

/-- No transaction ever removes a key from the replay record. -/
theorem mem_usedNonces_stepState {env : Env} {s : State} {k : Nat}
    (hk : k ∈ s.usedNonces) (op : Op) : k ∈ (stepState env s op).usedNonces := by
  cases op with
  | submit now sender oid r ts n sig =>
    simp only [stepState]
    cases hs : submitRuling env s now sender oid r ts n sig with
    | error e => exact hk
    | ok p =>
      obtain ⟨s', ev⟩ := p
      obtain ⟨_, _, hs', _⟩ := submit_ok_elim hs
      rw [hs']
      exact List.mem_cons_of_mem _ hk
  | rotate sender a =>
    simp only [stepState, setArbitrator]
    by_cases hsend : sender = s.arbitrator
    · simp only [if_pos hsend]; exact hk
    · simp only [if_neg hsend]; exact hk

/-- No sequence of transactions ever removes a key from the replay record. -/
theorem mem_usedNonces_execState {env : Env} {k : Nat} :
    ∀ (ops : List Op) (s : State), k ∈ s.usedNonces →
      k ∈ (execState env s ops).usedNonces := by
  intro ops
  induction ops with
  | nil => intro s hk; exact hk
  | cons op ops ih =>
    intro s hk
    exact ih (stepState env s op) (mem_usedNonces_stepState hk op)

/-- Once the replay key of `(orderId, nonce)` is burned, no later
transaction sequence contains an accepted submission for that pair. -/
theorem acceptedCount_eq_zero_of_used {env : Env} {oid n : Nat} :
    ∀ (ops : List Op) (s : State), env.replayKey oid n ∈ s.usedNonces →
      acceptedCount env s oid n ops = 0 := by
  intro ops
  induction ops with
  | nil => intro s _; rfl
  | cons op ops ih =>
    intro s hk
    have hrest := ih (stepState env s op) (mem_usedNonces_stepState hk op)
    have hhead : acceptedHere env s oid n op = false := by
      cases op with
      | submit now sender oid' r ts n' sig =>
        unfold acceptedHere
        by_cases hoid : oid' = oid
        · by_cases hn : n' = n
          · subst hoid; subst hn
            simp [submit_used_not_accepted hk]
          · simp [hn]
        · simp [hoid]
      | rotate sender a => rfl
    unfold acceptedCount
    rw [hhead, hrest]
    simp

/-- An accepted submission for `(orderId, nonce)` burns its replay key in
the post-transaction state. -/
theorem acceptedHere_mem_stepState {env : Env} {s : State} {oid n : Nat}
    {op : Op} (h : acceptedHere env s oid n op = true) :
    env.replayKey oid n ∈ (stepState env s op).usedNonces := by
  cases op with
  | submit now sender oid' r ts n' sig =>
    unfold acceptedHere at h
    simp only [Bool.and_eq_true, beq_iff_eq] at h
    obtain ⟨⟨hoid, hn⟩, hacc⟩ := h
    subst hoid; subst hn
    simp only [stepState]
    cases hs : submitRuling env s now sender oid' r ts n' sig with
    | error e => rw [hs] at hacc; simp [isAccepted] at hacc
    | ok p =>
      obtain ⟨s', ev⟩ := p
      obtain ⟨_, _, hs', _⟩ := submit_ok_elim hs
      rw [hs']
      exact List.mem_cons_self _ _
  | rotate sender a => cases h

/-- Over any transaction sequence, the pair `(orderId, nonce)` is accepted
at most once. -/
theorem acceptedCount_le_one {env : Env} {oid n : Nat} :
    ∀ (ops : List Op) (s : State), acceptedCount env s oid n ops ≤ 1 := by
  intro ops
  induction ops with
  | nil => intro s; exact Nat.zero_le 1
  | cons op ops ih =>
    intro s
    unfold acceptedCount
    by_cases hop : acceptedHere env s oid n op = true
    · rw [if_pos hop,
        acceptedCount_eq_zero_of_used ops (stepState env s op)
          (acceptedHere_mem_stepState hop)]
    · rw [if_neg hop, Nat.zero_add]
      exact ih (stepState env s op)

/-! ### A concrete environment for evaluating the theorems -/

deriving instance DecidableEq for Except

/-- A concrete stand-in for `ECDSA.recover`: a signature `[x]` with
`x ≠ 0` recovers the address `x`; everything else is malformed.  Like
OpenZeppelin `ECDSA.recover`, it never yields the zero address. -/
def ecrecover0 (_digest : Nat) (sig : List Nat) : Option Nat :=
  match sig with
  | [x] => if x = 0 then none else some x
  | _ => none

/-- A concrete cryptographic environment for evaluating the theorems on
explicit inputs. -/
def env0 : Env where
  keccakRuling := fun oid r ts n =>
    (((oid * 2 ^ 8 + r) * 2 ^ 256 + ts) * 2 ^ 256 + n) * 2 + 1
  hashTypedDataV4 := fun h => h * 2
  ecrecover := ecrecover0
  replayKey := fun oid n => oid * 2 ^ 256 + n

/-- Initial storage: arbitrator address `7`, empty replay record. -/
def s0 : State := ⟨7, []⟩

/-- Storage in which the replay key of `(orderId, nonce) = (1, 9)` is
already burned. -/
def s1 : State := ⟨7, [env0.replayKey 1 9]⟩

/-- A concrete transaction sequence: one submission for `(1, 9)` and one
rotation to address `8`. -/
def ops1 : List Op := [.submit 100 5 1 2 50 9 [7], .rotate 7 8]

/-! ### The claims -/

/-- C1: for every `(orderId, nonce)` pair, `submitRuling` succeeds at most
once over any sequence of transactions; the replay record never loses an
entry; and once the pair's key is burned, any later `submitRuling` for the
identical pair whose signature still verifies (any valid re-signature over
the same payload) reverts with `"nonce used"`. -/
theorem C1_replay_at_most_once (env : Env) (s : State) (ops : List Op)
    (oid n : Nat) :
    acceptedCount env s oid n ops ≤ 1
    ∧ (∀ k, k ∈ s.usedNonces → k ∈ (execState env s ops).usedNonces)
    ∧ (∀ now sender r ts sig,
        env.replayKey oid n ∈ s.usedNonces →
        verifyRulingSignature env s now oid r ts n sig = .ok true →
        submitRuling env s now sender oid r ts n sig = .error .nonceUsed) := by
  refine ⟨acceptedCount_le_one ops s,
    fun k hk => mem_usedNonces_execState ops s hk, ?_⟩
  intro now sender r ts sig hk hv
  unfold submitRuling
  rw [hv]
  simp only [if_pos hk]

/-- Evaluation of `C1_replay_at_most_once` on a concrete environment,
state and transaction sequence. -/
theorem C1_replay_at_most_once_witness :
    acceptedCount env0 s1 1 9 ops1 ≤ 1
    ∧ env0.replayKey 1 9 ∈ (execState env0 s1 ops1).usedNonces
    ∧ submitRuling env0 s1 100 5 1 2 50 9 [7] = .error .nonceUsed := by
  obtain ⟨h1, h2, h3⟩ := C1_replay_at_most_once env0 s1 ops1 1 9
  exact ⟨h1, h2 (env0.replayKey 1 9) (by decide),
    h3 100 5 2 50 [7] (by decide) (by decide)⟩

/-- C2: verification (freshness + signature validity) is decided strictly
before the replay record: whenever `verifyRulingSignature` does not return
`true`, `submitRuling` reverts, its revert reason is never `"nonce used"`
(so an expired signature is rejected this way even when its nonce has
never been seen), and the storage — replay record included — is exactly
as before the call. -/
theorem C2_verify_before_replay (env : Env) (s : State)
    (now sender oid r ts n : Nat) (sig : List Nat)
    (h : verifyRulingSignature env s now oid r ts n sig ≠ .ok true) :
    isAccepted (submitRuling env s now sender oid r ts n sig) = false
    ∧ submitRuling env s now sender oid r ts n sig ≠ .error .nonceUsed
    ∧ stepState env s (.submit now sender oid r ts n sig) = s := by
  cases hv : verifyRulingSignature env s now oid r ts n sig with
  | error e =>
    refine ⟨?_, ?_, ?_⟩
    · simp [submitRuling, hv, isAccepted]
    · simp only [submitRuling, hv]
      cases e <;> simp [VerifyError.toSubmitError]
    · simp [stepState, submitRuling, hv]
  | ok b =>
    cases b with
    | false =>
      refine ⟨?_, ?_, ?_⟩
      · simp [submitRuling, hv, isAccepted]
      · simp [submitRuling, hv]
      · simp [stepState, submitRuling, hv]
    | true => exact absurd hv h

/-- Evaluation of `C2_verify_before_replay` on a concrete expired
submission (issued at `50`, submitted at `5000`) whose nonce has never
been seen. -/
theorem C2_verify_before_replay_witness :
    isAccepted (submitRuling env0 s0 5000 5 1 2 50 9 [7]) = false
    ∧ submitRuling env0 s0 5000 5 1 2 50 9 [7] ≠ .error .nonceUsed
    ∧ stepState env0 s0 (.submit 5000 5 1 2 50 9 [7]) = s0 :=
  C2_verify_before_replay env0 s0 5000 5 1 2 50 9 [7] (by decide)

/-- C3: any payload older than the freshness window
(`issuedAt + 3600 < block.timestamp`) makes both `verifyRulingSignature`
and `submitRuling` revert with `"signature expired"`, for every signature
and every state — in particular even for a valid arbitrator signature with
an unused nonce. -/
theorem C3_expired_always_rejected (env : Env) (s : State)
    (now sender oid r ts n : Nat) (sig : List Nat)
    (hnow : now ≤ UINT256_MAX) (hexp : ts + FRESHNESS_WINDOW < now) :
    verifyRulingSignature env s now oid r ts n sig = .error .signatureExpired
    ∧ submitRuling env s now sender oid r ts n sig = .error .signatureExpired := by
  have h1 : ¬ UINT256_MAX < ts + FRESHNESS_WINDOW := by omega
  have h2 : ¬ now ≤ ts + FRESHNESS_WINDOW := by omega
  constructor
  · simp [verifyRulingSignature, h1, h2]
  · simp [submitRuling, verifyRulingSignature, h1, h2, VerifyError.toSubmitError]

/-- Evaluation of `C3_expired_always_rejected` on a concrete stale
payload (issued at `50`, submitted at `5000`) carrying a signature of the
active arbitrator and an unused nonce. -/
theorem C3_expired_always_rejected_witness :
    verifyRulingSignature env0 s0 5000 1 2 50 9 [7] = .error .signatureExpired
    ∧ submitRuling env0 s0 5000 5 1 2 50 9 [7] = .error .signatureExpired :=
  C3_expired_always_rejected env0 s0 5000 5 1 2 50 9 [7] (by decide) (by decide)

/-- C4: a successful `setArbitrator(a)` with `a` different from the old
identity leaves the replay record untouched and installs `a`; afterwards
any signature still recovering to the old identity makes
`verifyRulingSignature` return `false` and `submitRuling` revert with
`"bad signature"` for every new submission. -/
theorem C4_rotation_invalidates_old_identity (env : Env) (s : State)
    (sender a : Nat) (s' : State) (ev : ArbitratorChangedEvent)
    (hrot : setArbitrator s sender a = .ok (s', ev)) (hne : a ≠ s.arbitrator)
    (now sender' oid r ts n : Nat) (sig : List Nat)
    (hnof : ts + FRESHNESS_WINDOW ≤ UINT256_MAX)
    (hfresh : now ≤ ts + FRESHNESS_WINDOW)
    (hrec : env.ecrecover (rulingDigest env oid r ts n) sig = some s.arbitrator) :
    s'.usedNonces = s.usedNonces
    ∧ s'.arbitrator = a
    ∧ verifyRulingSignature env s' now oid r ts n sig = .ok false
    ∧ submitRuling env s' now sender' oid r ts n sig = .error .badSignature := by
  unfold setArbitrator at hrot
  by_cases hs : sender = s.arbitrator
  · rw [if_pos hs] at hrot
    simp only [Except.ok.injEq, Prod.mk.injEq] at hrot
    obtain ⟨hs', _⟩ := hrot
    subst hs'
    have hov : ¬ UINT256_MAX < ts + FRESHNESS_WINDOW := by omega
    have hver : verifyRulingSignature env { s with arbitrator := a } now oid r ts n sig
        = .ok false := by
      unfold verifyRulingSignature
      rw [if_neg hov, if_pos hfresh, hrec]
      have : decide (s.arbitrator = a) = false := by
        simp only [decide_eq_false_iff_not]
        exact fun hcontra => hne hcontra.symm
      simp [this]
    refine ⟨rfl, rfl, hver, ?_⟩
    unfold submitRuling
    rw [hver]
  · rw [if_neg hs] at hrot
    cases hrot

/-- Evaluation of `C4_rotation_invalidates_old_identity` on a concrete
rotation from arbitrator `7` to arbitrator `8` followed by a fresh
submission signed by the old identity `7`. -/
theorem C4_rotation_invalidates_old_identity_witness :
    (⟨8, []⟩ : State).usedNonces = s0.usedNonces
    ∧ (⟨8, []⟩ : State).arbitrator = 8
    ∧ verifyRulingSignature env0 ⟨8, []⟩ 100 1 2 50 9 [7] = .ok false
    ∧ submitRuling env0 ⟨8, []⟩ 100 5 1 2 50 9 [7] = .error .badSignature :=
  C4_rotation_invalidates_old_identity env0 s0 7 8 ⟨8, []⟩ ⟨8⟩ (by decide)
    (by decide) 100 5 1 2 50 9 [7] (by decide) (by decide) (by decide)

/-- C5: `verifyRulingSignature` is a pure predicate of
`(payload, signature, arbitrator, block.timestamp)`: two states that agree
on the active arbitrator — however much their replay records differ —
yield identical results on every input (and as a `view` function it has no
storage effect, so it can never burn a nonce). -/
theorem C5_verify_pure (env : Env) (s₁ s₂ : State) (now oid r ts n : Nat)
    (sig : List Nat) (h : s₁.arbitrator = s₂.arbitrator) :
    verifyRulingSignature env s₁ now oid r ts n sig
      = verifyRulingSignature env s₂ now oid r ts n sig := by
  unfold verifyRulingSignature
  rw [h]

/-- Evaluation of `C5_verify_pure` on two concrete states with the same
arbitrator and different replay records. -/
theorem C5_verify_pure_witness :
    verifyRulingSignature env0 s0 100 1 2 50 9 [7]
      = verifyRulingSignature env0 s1 100 1 2 50 9 [7] :=
  C5_verify_pure env0 s0 s1 100 1 2 50 9 [7] (by decide)

/-- C6: `submitRuling` mutates storage only on success, and then by
exactly one insertion into the replay record (the arbitrator identity is
untouched and the inserted key was fresh); on every revert path the
post-transaction storage is exactly the pre-call storage. -/
theorem C6_mutation_only_on_success (env : Env) (s : State)
    (now sender oid r ts n : Nat) (sig : List Nat) :
    (∀ e, submitRuling env s now sender oid r ts n sig = .error e →
      stepState env s (.submit now sender oid r ts n sig) = s)
    ∧ (∀ s' ev, submitRuling env s now sender oid r ts n sig = .ok (s', ev) →
      s'.usedNonces = env.replayKey oid n :: s.usedNonces
      ∧ s'.arbitrator = s.arbitrator
      ∧ env.replayKey oid n ∉ s.usedNonces) := by
  constructor
  · intro e he
    simp only [stepState]
    rw [he]
  · intro s' ev hok
    obtain ⟨_, hk, hs', _⟩ := submit_ok_elim hok
    subst hs'
    exact ⟨rfl, rfl, hk⟩

/-- Evaluation of `C6_mutation_only_on_success`: a concrete rejected
submission (bad signer) leaves the state unchanged, and a concrete
accepted submission inserts exactly its replay key. -/
theorem C6_mutation_only_on_success_witness :
    stepState env0 s0 (.submit 100 5 1 2 50 9 [4]) = s0
    ∧ s1.usedNonces = env0.replayKey 1 9 :: s0.usedNonces
    ∧ s1.arbitrator = s0.arbitrator
    ∧ env0.replayKey 1 9 ∉ s0.usedNonces := by
  refine ⟨(C6_mutation_only_on_success env0 s0 100 5 1 2 50 9 [4]).1
      .badSignature (by decide), ?_⟩
  exact (C6_mutation_only_on_success env0 s0 100 5 1 2 50 9 [7]).2 s1
    ⟨1, 2, 50, 9, 5⟩ (by decide)

/-- C7: within the freshness window, a malformed signature (one on which
`ECDSA.recover` fails) makes both `verifyRulingSignature` and
`submitRuling` revert with the defined `invalidSignature` reason — a
defined error, not a crash — while for any signature that does recover to
the active arbitrator, `verifyRulingSignature` returns `true`, so that
error branch is unreachable for well-formed valid arbitrator
signatures. -/
theorem C7_malformed_defined_error (env : Env) (s : State)
    (now sender oid r ts n : Nat) (sig : List Nat)
    (hnof : ts + FRESHNESS_WINDOW ≤ UINT256_MAX)
    (hfresh : now ≤ ts + FRESHNESS_WINDOW) :
    (env.ecrecover (rulingDigest env oid r ts n) sig = none →
      verifyRulingSignature env s now oid r ts n sig = .error .invalidSignature
      ∧ submitRuling env s now sender oid r ts n sig = .error .invalidSignature)
    ∧ (env.ecrecover (rulingDigest env oid r ts n) sig = some s.arbitrator →
      verifyRulingSignature env s now oid r ts n sig = .ok true) := by
  have hov : ¬ UINT256_MAX < ts + FRESHNESS_WINDOW := by omega
  constructor
  · intro hrec
    have hver : verifyRulingSignature env s now oid r ts n sig
        = .error .invalidSignature := by
      unfold verifyRulingSignature
      rw [if_neg hov, if_pos hfresh, hrec]
    refine ⟨hver, ?_⟩
    unfold submitRuling
    rw [hver]
    rfl
  · intro hrec
    unfold verifyRulingSignature
    rw [if_neg hov, if_pos hfresh, hrec]
    simp

/-- Evaluation of `C7_malformed_defined_error` on a concrete malformed
signature (wrong length `[1, 2]`) and a concrete valid arbitrator
signature. -/
theorem C7_malformed_defined_error_witness :
    (verifyRulingSignature env0 s0 100 1 2 50 9 [1, 2] = .error .invalidSignature
      ∧ submitRuling env0 s0 100 5 1 2 50 9 [1, 2] = .error .invalidSignature)
    ∧ verifyRulingSignature env0 s0 100 1 2 50 9 [7] = .ok true := by
  refine ⟨(C7_malformed_defined_error env0 s0 100 5 1 2 50 9 [1, 2] (by decide)
      (by decide)).1 (by decide), ?_⟩
  exact (C7_malformed_defined_error env0 s0 100 5 1 2 50 9 [7] (by decide)
      (by decide)).2 (by decide)

/-- C8 counterexample: a concrete submission accepted at
`block.timestamp = 100` (payload issued at `50`) emits the event
`(orderId = 1, ruling = 2, timestamp = 50, nonce = 9, submitter = 5)` —
its `timestamp` field is the payload's `issuedAt`, and no field of the
record equals the accepting time `100`; likewise a rotation performed at
time `100` emits a record whose only field is the new identity `8`, not a
timestamp.  So neither record carries the time of acceptance/rotation,
contrary to the claim. -/
theorem C8_counterexample :
    submitRuling env0 s0 100 5 1 2 50 9 [7] = .ok (s1, ⟨1, 2, 50, 9, 5⟩)
    ∧ (1 : Nat) ≠ 100 ∧ (2 : Nat) ≠ 100 ∧ (50 : Nat) ≠ 100
    ∧ (9 : Nat) ≠ 100 ∧ (5 : Nat) ≠ 100
    ∧ setArbitrator s0 7 8 = .ok (⟨8, []⟩, ⟨8⟩)
    ∧ (8 : Nat) ≠ 100 := by
  decide

/-- C8 (amended): every accepted submission emits a `RulingSubmitted`
record carrying exactly the payload fields `orderId`, `rulingCode`,
`issuedAt`, `nonce` together with the submitting caller's address (not
the accepting time), and every successful rotation emits an
`ArbitratorChanged` record carrying exactly the new identity (no
timestamp field); a success without its record is impossible since the
success value is the record itself paired with the new state. -/
theorem C8_amended_event_contents (env : Env) (s : State)
    (now sender oid r ts n a : Nat) (sig : List Nat)
    (s' s'' : State) (ev : RulingSubmittedEvent) (ev' : ArbitratorChangedEvent)
    (hsub : submitRuling env s now sender oid r ts n sig = .ok (s', ev))
    (hrot : setArbitrator s sender a = .ok (s'', ev')) :
    ev = ⟨oid, r, ts, n, sender⟩ ∧ ev' = ⟨a⟩ := by
  obtain ⟨_, _, _, hev⟩ := submit_ok_elim hsub
  refine ⟨hev, ?_⟩
  unfold setArbitrator at hrot
  by_cases hs : sender = s.arbitrator
  · rw [if_pos hs] at hrot
    simp only [Except.ok.injEq, Prod.mk.injEq] at hrot
    exact hrot.2.symm
  · rw [if_neg hs] at hrot
    cases hrot

/-- Evaluation of `C8_amended_event_contents` on a concrete accepted
submission and a concrete successful rotation, both sent by the
arbitrator `7`. -/
theorem C8_amended_event_contents_witness :
    (⟨1, 2, 50, 9, 7⟩ : RulingSubmittedEvent) = ⟨1, 2, 50, 9, 7⟩
    ∧ (⟨8⟩ : ArbitratorChangedEvent) = ⟨8⟩ :=
  C8_amended_event_contents env0 s0 100 7 1 2 50 9 8 [7] s1 ⟨8, []⟩
    ⟨1, 2, 50, 9, 7⟩ ⟨8⟩ (by decide) (by decide)

/-- `ecrecover0` shares OpenZeppelin `ECDSA.recover`'s guarantee of never
yielding the zero address. -/
theorem ecrecover0_ne_zero (d : Nat) (sig : List Nat) :
    ecrecover0 d sig ≠ some 0 := by
  match sig with
  | [] => exact fun h => Option.noConfusion h
  | [x] =>
    by_cases hx : x = 0
    · simp [ecrecover0, hx]
    · simp [ecrecover0, hx]
  | _ :: _ :: _ => exact fun h => Option.noConfusion h

/-- C9: `setArbitrator` validates nothing about the new identity: called
by the current arbitrator it succeeds for every address `a` — the zero
address and the current identity included — and installs `a`.  Rotating to
the zero address permanently disables the contract: since
`ECDSA.recover` never yields the zero address, no signature can verify
any more, and since no real caller is the zero address, no further
rotation is possible. -/
theorem C9_rotation_unvalidated (env : Env) (s : State) (a : Nat)
    (hzero : ∀ d sig, env.ecrecover d sig ≠ some 0) :
    setArbitrator s s.arbitrator a = .ok ({ s with arbitrator := a }, ⟨a⟩)
    ∧ (∀ sb : State, sb.arbitrator = 0 →
        (∀ now oid r ts n sig,
          verifyRulingSignature env sb now oid r ts n sig ≠ .ok true)
        ∧ (∀ sender a', sender ≠ 0 →
          setArbitrator sb sender a' = .error .unauthorized)) := by
  constructor
  · unfold setArbitrator
    rw [if_pos rfl]
  · intro sb hb
    constructor
    · intro now oid r ts n sig
      unfold verifyRulingSignature
      by_cases hov : UINT256_MAX < ts + FRESHNESS_WINDOW
      · rw [if_pos hov]
        exact fun h => Except.noConfusion h
      · rw [if_neg hov]
        by_cases hfr : now ≤ ts + FRESHNESS_WINDOW
        · rw [if_pos hfr]
          cases hrec : env.ecrecover (rulingDigest env oid r ts n) sig with
          | none => exact fun h => Except.noConfusion h
          | some signer =>
            intro h
            simp only [Except.ok.injEq, decide_eq_true_eq] at h
            rw [hb] at h
            exact hzero _ _ (h ▸ hrec)
        · rw [if_neg hfr]
          exact fun h => Except.noConfusion h
    · intro sender a' hsender
      unfold setArbitrator
      rw [hb, if_neg hsender]

/-- Evaluation of `C9_rotation_unvalidated`: the arbitrator `7` rotates to
the zero address; afterwards a previously valid arbitrator signature no
longer verifies and the old arbitrator can no longer rotate. -/
theorem C9_rotation_unvalidated_witness :
    setArbitrator s0 s0.arbitrator 0 = .ok ({ s0 with arbitrator := 0 }, ⟨0⟩)
    ∧ verifyRulingSignature env0 ⟨0, []⟩ 100 1 2 50 9 [7] ≠ .ok true
    ∧ setArbitrator ⟨0, []⟩ 7 3 = .error .unauthorized := by
  obtain ⟨h1, h2⟩ := C9_rotation_unvalidated env0 s0 0
    (fun d sig => ecrecover0_ne_zero d sig)
  obtain ⟨h3, h4⟩ := h2 ⟨0, []⟩ rfl
  exact ⟨h1, h3 100 1 2 50 9 [7], h4 7 3 (by decide)⟩

/-- C10: the freshness check bounds only the age of a payload, never
future-dating: for every submission time `now ≤ issuedAt + 3600` (in
particular for any payload dated at or after `now`, arbitrarily far in
the future, as long as `issuedAt + 3600` does not overflow) the expiry
and overflow guards pass, and a valid arbitrator signature with an unused
nonce is then accepted. -/
theorem C10_no_future_dating_bound (env : Env) (s : State)
    (now sender oid r ts n : Nat) (sig : List Nat)
    (hnof : ts + FRESHNESS_WINDOW ≤ UINT256_MAX)
    (hfresh : now ≤ ts + FRESHNESS_WINDOW) :
    verifyRulingSignature env s now oid r ts n sig ≠ .error .signatureExpired
    ∧ verifyRulingSignature env s now oid r ts n sig ≠ .error .arithOverflow
    ∧ (env.ecrecover (rulingDigest env oid r ts n) sig = some s.arbitrator →
      env.replayKey oid n ∉ s.usedNonces →
      submitRuling env s now sender oid r ts n sig =
        .ok ({ s with usedNonces := env.replayKey oid n :: s.usedNonces },
             ⟨oid, r, ts, n, sender⟩)) := by
  have hov : ¬ UINT256_MAX < ts + FRESHNESS_WINDOW := by omega
  have hshape : ∀ x, verifyRulingSignature env s now oid r ts n sig = x →
      x = .error .invalidSignature ∨ ∃ b, x = .ok b := by
    intro x hx
    unfold verifyRulingSignature at hx
    rw [if_neg hov, if_pos hfresh] at hx
    cases hrec : env.ecrecover (rulingDigest env oid r ts n) sig with
    | none => rw [hrec] at hx; exact Or.inl hx.symm
    | some signer => rw [hrec] at hx; exact Or.inr ⟨_, hx.symm⟩
  refine ⟨?_, ?_, ?_⟩
  · intro h
    rcases hshape _ h with h' | ⟨b, h'⟩ <;> cases h'
  · intro h
    rcases hshape _ h with h' | ⟨b, h'⟩ <;> cases h'
  · intro hrec hk
    have hver : verifyRulingSignature env s now oid r ts n sig = .ok true := by
      unfold verifyRulingSignature
      rw [if_neg hov, if_pos hfresh, hrec]
      simp
    unfold submitRuling
    rw [hver, if_neg hk]

/-- Evaluation of `C10_no_future_dating_bound` on a concrete future-dated
payload: issued at `5000`, verified and submitted already at `100`, and
accepted. -/
theorem C10_no_future_dating_bound_witness :
    verifyRulingSignature env0 s0 100 1 2 5000 9 [7] ≠ .error .signatureExpired
    ∧ verifyRulingSignature env0 s0 100 1 2 5000 9 [7] ≠ .error .arithOverflow
    ∧ submitRuling env0 s0 100 5 1 2 5000 9 [7] =
        .ok ({ s0 with usedNonces := env0.replayKey 1 9 :: s0.usedNonces },
             ⟨1, 2, 5000, 9, 5⟩) := by
  obtain ⟨h1, h2, h3⟩ := C10_no_future_dating_bound env0 s0 100 5 1 2 5000 9 [7]
    (by decide) (by decide)
  exact ⟨h1, h2, h3 (by decide) (by decide)⟩

end ArbitrationAdapter
